import Mathlib

/-!
Verification of the `api` request/transport layer of the justin library
(package `api`: `BuildBody`, `BuildRequest`, `Do`, `DoBatch`, the `Call` log
record and the `Logger` capability), against its natural-language
specification.

The Go code is shallowly embedded.  External collaborators are modeled as
explicit oracle parameters:

* `client.Do` (the net/http client) becomes a function
  `Request → Except String Response`; per the documented net/http contract a
  transport failure returns a nil response together with a non-nil error, so
  `Except.error e` stands for the Go pair `(nil, e)` and `Except.ok res` for
  `(res, nil)`.  The response body stream is summarized by the outcome of the
  single `ioutil.ReadAll` the code performs on it: the bytes obtained and the
  read error, if any.
* `fmt.Sprintf "%v"` applied to a pointer or interface value renders nil as
  the literal string `"<nil>"` and otherwise delegates to the rendering of
  the pointed-to value; `fmtValue` captures exactly that, with the non-nil
  rendering supplied as an oracle.  A Go `error` value is rendered by its
  message, so errors are modeled as `Option String` (`none` = nil error) and
  rendered by `fmtValue id`.
* `text/template` compilation results and `json.Compact` are oracles inside
  the template cache and `BuildBody`; `http.NewRequest` is an oracle inside
  `BuildRequest`; wall-clock durations are an oracle string (the code only
  ever formats them into the log record).

Goroutine scheduling in `DoBatch` is modeled by an explicit completion
schedule: the list of item indices in the order their units of work finish
and write.  A complete run of the dispatcher is a schedule that is a
permutation of `range N` (each unit runs exactly once); theorems quantify
over all such schedules.
-/

namespace Justin

/-- An outbound HTTP request as the code builds and uses it: method, target
address, header set and optional body text (`http.Request` fields touched by
this code). -/
structure Request where
  method : String
  url : String
  headers : List (String × String)
  body : Option String
deriving DecidableEq

/-- An HTTP response as observed by this code: status, headers, and the
outcome of draining its body stream with `ioutil.ReadAll` — the bytes read
(`bodyBytes`, possibly partial) and the read error if draining failed
(`bodyReadErr`, `none` for a clean read). -/
structure Response where
  status : Nat
  headers : List (String × String)
  bodyBytes : String
  bodyReadErr : Option String
deriving DecidableEq

/-- The `api.Call` log record handed to a `Logger` (account.go lines 67-76). -/
structure Call where
  OriginID : String
  CalleeID : String
  TimeTaken : String
  Req : String
  ReqBody : String
  Res : String
  ResBody : String
  Err : String
deriving DecidableEq

/-- The HTTP client collaborator, `client.Do`: `Except.error e` models the Go
result `(nil, e)` (transport failure), `Except.ok res` models `(res, nil)`. -/
abbrev HttpClient := Request → Except String Response

/-- Go `fmt.Sprintf "%v"` on a nilable value: nil renders as `"<nil>"`, a
non-nil value by the supplied rendering. -/
def fmtValue (render : α → String) : Option α → String
  | none => "<nil>"
  | some x => render x

/-- The triple returned by `api.Do`: `(res *http.Response, readBody string,
err error)`. -/
structure DoResult where
  res : Option Response
  readBody : String
  err : Option String
deriving DecidableEq

/-- Shallow embedding of `api.Do` (account.go lines 152-178), which transports
a single API request.  `fmtReq`/`fmtRes` are the `fmt` renderings of a non-nil
request/response, `timeTaken` the formatted elapsed wall-clock time.  The
logger is an optional callback of arbitrary result type `ε` (the code ignores
any result of `Logger.Log`).  Returns the result triple together with the
list of `Call` records handed to the logger (empty when `logger` is nil). -/
def Do {ε : Type} (client : HttpClient) (fmtReq : Request → String) (fmtRes : Response → String)
    (timeTaken : String) (originID calleeID : String) (req : Request) (reqBody : String)
    (logger : Option (Call → ε)) : DoResult × List Call :=
  match client req with
  | Except.error e =>
      -- client.Do failed: res is nil, readBody still "", log once if a logger
      -- is supplied, then return (res, readBody, err)
      let c : Call :=
        { OriginID := originID, CalleeID := calleeID, TimeTaken := timeTaken,
          Req := fmtReq req, ReqBody := reqBody, Res := fmtValue fmtRes none,
          ResBody := "", Err := fmtValue id (some e) }
      (⟨none, "", some e⟩, if logger.isSome then [c] else [])
  | Except.ok res =>
      -- success: drain the body (buffer and err come from ReadAll), log once
      -- if a logger is supplied, then return (res, readBody, err)
      let readBody := res.bodyBytes
      let rerr := res.bodyReadErr
      let c : Call :=
        { OriginID := originID, CalleeID := calleeID, TimeTaken := timeTaken,
          Req := fmtReq req, ReqBody := reqBody, Res := fmtValue fmtRes (some res),
          ResBody := readBody, Err := fmtValue id rerr }
      (⟨some res, readBody, rerr⟩, if logger.isSome then [c] else [])

/-- A compiled request template: the compilation error captured at
registration time (`err`) and the compiled template (`t`), the latter modeled
by its execution behavior on a data object of type `δ` (render to text or
fail with an execution error). -/
structure RequestTemplate (δ : Type) where
  err : Option String
  t : Option (δ → Except String String)

/-- The package-level `RequestTemplates` cache, modeled as a total lookup: a
Go map read yields the zero value for an absent key, here `⟨none, none⟩`. -/
abbrev TemplateCache (δ : Type) := String → RequestTemplate δ

/-- Shallow embedding of `api.BuildBody` (account.go lines 113-137), which
renders the body of an API request from the named template and data.
`jsonCompact` is the `encoding/json.Compact` collaborator.  The Go function
returns `(string, io.Reader, error)` where the reader holds the same bytes as
the string, so success is modeled by the single rendered text. -/
def BuildBody (cache : TemplateCache δ) (jsonCompact : String → Except String String)
    (templateName : String) (data : δ) (contentType : String) : Except String String :=
  let rt := cache templateName
  match rt.err with
  | some e => Except.error ("error initialising template " ++ templateName ++ ", " ++ e)
  | none =>
    match rt.t with
    | none => Except.error ("template " ++ templateName ++ " not found")
    | some t =>
      match t data with
      | Except.error e =>
          Except.error ("error executing template " ++ templateName ++ ", " ++ e)
      | Except.ok rendered =>
          if contentType = "application/json" then
            match jsonCompact rendered with
            | Except.error e =>
                Except.error ("error in json request body generated from template "
                  ++ templateName ++ ", " ++ rendered ++ ", " ++ e)
            | Except.ok compacted => Except.ok compacted
          else Except.ok rendered

/-- Go `http.Header.Set`: replaces any existing values for the key with the
single given value (headers are read via first match, see `getHeader`). -/
def setHeader (hs : List (String × String)) (k v : String) : List (String × String) :=
  (k, v) :: hs.filter (fun kv => kv.1 ≠ k)

/-- Go `http.Header.Get`: the value of the first entry for the key, or the
empty string when the key is absent. -/
def getHeader (hs : List (String × String)) (k : String) : String :=
  match hs.find? (fun kv => kv.1 = k) with
  | some kv => kv.2
  | none => ""

/-- The `http.NewRequest` collaborator: builds a `Request` from method, path
and body, or fails when the method/path pair is structurally invalid. -/
abbrev NewRequestFn := String → String → Option String → Except String Request

/-- Shallow embedding of `api.BuildRequest` (account.go lines 139-149): calls
`http.NewRequest`, wraps its error, and on success sets the `User-Agent` and
`Content-Type` headers from the given values. -/
def BuildRequest (newRequest : NewRequestFn) (userAgent contentType method reqPath : String)
    (reqBody : Option String) : Except String Request :=
  match newRequest method reqPath reqBody with
  | Except.error e => Except.error ("error building request " ++ e)
  | Except.ok req =>
      Except.ok { req with
        headers := setHeader (setHeader req.headers "User-Agent" userAgent)
          "Content-Type" contentType }

/-- The three parallel result sequences returned by `api.DoBatch`
(`resps`, `readBodies`, `errs`), initialised by `make` to Go zero values. -/
structure BatchResult where
  resps : List (Option Response)
  readBodies : List String
  errs : List (Option String)
deriving DecidableEq

/-- The single combined assignment a unit of work performs:
`resps[s], readBodies[s], errs[s] = Do(...)` (account.go line 213). -/
def writeSlot (st : BatchResult) (s : Nat) (r : DoResult) : BatchResult :=
  ⟨st.resps.set s r.res, st.readBodies.set s r.readBody, st.errs.set s r.err⟩

/-- Dispatcher state: the shared result sequences plus the `sync.WaitGroup`
counter (initialised to `z` by `wg.Add(z)`, decremented by each deferred
`wg.Done()`). -/
structure DispatchState where
  results : BatchResult
  wgCount : Nat
deriving DecidableEq

/-- One unit of work finishing: it writes its triple at its own item index
`s` and then its deferred `wg.Done()` decrements the barrier — the decrement
is unconditional, on every code path of the unit. -/
def runUnit (step : Nat → DoResult) (st : DispatchState) (s : Nat) : DispatchState :=
  ⟨writeSlot st.results s (step s), st.wgCount - 1⟩

/-- Initial dispatcher state for a batch of `z` items: `make` fills the three
sequences with zero values (nil responses, empty strings, nil errors), and
`wg.Add(z)` sets the barrier to `z`. -/
def initBatch (z : Nat) : DispatchState :=
  ⟨⟨List.replicate z none, List.replicate z "", List.replicate z none⟩, z⟩

/-- Executes a batch under a given completion schedule: the list of item
indices in the order their concurrent units finish and write.  The channel of
`batchedRequest` items delivers each item exactly once with its original
zero-based `Sequence` index, and each unit writes only at that index, so a
complete run of `DoBatch` is any schedule that is a permutation of
`range z`. -/
def DoBatchSched (step : Nat → DoResult) (z : Nat) (schedule : List Nat) : DispatchState :=
  schedule.foldl (runUnit step) (initBatch z)

/-- The triple computed by the unit of work for item `s`: it transports
request `s` with its body via `Do` (account.go line 213).  Out-of-range reads
never occur in a run (schedule indices come from `range z`); `getD` supplies
a formal default. -/
def batchStep {ε : Type} (client : HttpClient) (fmtReq : Request → String) (fmtRes : Response → String)
    (elapsed : Nat → String) (originID calleeID : String)
    (reqs : List Request) (reqBodies : List String) (logger : Option (Call → ε))
    (s : Nat) : DoResult :=
  (Do client fmtReq fmtRes (elapsed s) originID calleeID
    (reqs.getD s ⟨"", "", [], none⟩) (reqBodies.getD s "") logger).1

/-- Shallow embedding of `api.DoBatch` (account.go lines 186-220): the result
sequences returned to the caller, obtained by running all `reqs.length` units
to completion (canonical schedule `range z`; schedule-independence is proved
separately). -/
def DoBatch {ε : Type} (client : HttpClient) (fmtReq : Request → String) (fmtRes : Response → String)
    (elapsed : Nat → String) (originID calleeID : String)
    (reqs : List Request) (reqBodies : List String)
    (logger : Option (Call → ε)) : BatchResult :=
  (DoBatchSched (batchStep client fmtReq fmtRes elapsed originID calleeID reqs reqBodies logger)
    reqs.length (List.range reqs.length)).results

/-- Generic view of one result sequence under a schedule: each processed
index is overwritten with its own value. -/
def writeAll (f : Nat → α) (schedule : List Nat) (init : List α) : List α :=
  schedule.foldl (fun acc s => acc.set s (f s)) init

/-- Concrete fixture request whose transport succeeds. -/
def okReq : Request := ⟨"GET", "http://ok/a", [], none⟩

/-- Second concrete fixture request whose transport succeeds. -/
def okReq2 : Request := ⟨"GET", "http://ok/b", [], none⟩

/-- Concrete fixture request to an address that refuses connections. -/
def failReq : Request := ⟨"GET", "http://refused", [], none⟩

/-- Concrete fixture response with a cleanly drained body. -/
def okResponse : Response := ⟨200, [], "hello", none⟩

/-- Concrete fixture client: refuses connections for `failReq`, otherwise
answers with `okResponse`. -/
def fxClient : HttpClient := fun r =>
  if r.url = "http://refused" then Except.error "connection refused"
  else Except.ok okResponse

/-- Fixture rendering of a non-nil request. -/
def fxFmtReq : Request → String := fun r => r.method ++ " " ++ r.url

/-- Fixture rendering of a non-nil response. -/
def fxFmtRes : Response → String := fun r => "status " ++ toString r.status

/-- Fixture elapsed-time oracle. -/
def fxElapsed : Nat → String := fun _ => "1.00"

/-- Fixture logger implementation; its result is discarded by `Do`. -/
def fxLogger : Option (Call → Nat) := some (fun _ => 0)

/-- Fixture template cache over `Nat` data: `Greet` renders normally, `Bad`
recorded a compile failure, `Exec` fails at execution time, `Json` renders
text that the fixture compactor accepts. -/
def fxCache : TemplateCache Nat := fun name =>
  if name = "Greet" then ⟨none, some (fun n => Except.ok ("Hello " ++ toString n))⟩
  else if name = "Bad" then ⟨some "unexpected EOF", none⟩
  else if name = "Exec" then ⟨none, some (fun _ => Except.error "missing field")⟩
  else if name = "Json" then ⟨none, some (fun _ => Except.ok " [1, 2] ")⟩
  else ⟨none, none⟩

/-- Fixture `json.Compact` collaborator: strips the blanks of the one json
value the fixtures render, rejects everything else. -/
def fxCompact : String → Except String String := fun s =>
  if s = " [1, 2] " then Except.ok "[1,2]"
  else Except.error "invalid character"

/-- Fixture `http.NewRequest` collaborator: fails on one malformed address,
otherwise builds the request with a pre-existing header entry. -/
def fxNewRequest : NewRequestFn := fun method path body =>
  if path = "://bad" then Except.error "parse ://bad: missing protocol scheme"
  else Except.ok ⟨method, path, [("Accept", "anything")], body⟩

/-- Unfolding of `writeAll` on a cons cell. -/
theorem writeAll_cons (f : Nat → α) (a : Nat) (t : List Nat) (init : List α) :
    writeAll f (a :: t) init = writeAll f t (init.set a (f a)) := rfl

/-- Writing results into slots never changes the length of the sequence. -/
theorem writeAll_length (f : Nat → α) (schedule : List Nat) (init : List α) :
    (writeAll f schedule init).length = init.length := by
  induction schedule generalizing init with
  | nil => rfl
  | cons a t ih => rw [writeAll_cons, ih, List.length_set]

/-- A slot no unit of the schedule writes to keeps its initial content. -/
theorem writeAll_not_mem (f : Nat → α) (schedule : List Nat) (init : List α) (i : Nat)
    (h : i ∉ schedule) : (writeAll f schedule init)[i]? = init[i]? := by
  induction schedule generalizing init with
  | nil => rfl
  | cons a t ih =>
    simp only [List.mem_cons, not_or] at h
    rw [writeAll_cons, ih _ h.2, List.getElem?_set_ne (fun he => h.1 he.symm)]

/-- A slot some unit of the schedule writes to ends up holding the value of
its own index, regardless of where in the schedule the write happens. -/
theorem writeAll_mem (f : Nat → α) (schedule : List Nat) (init : List α) (i : Nat)
    (hm : i ∈ schedule) (hi : i < init.length) :
    (writeAll f schedule init)[i]? = some (f i) := by
  induction schedule generalizing init with
  | nil => cases hm
  | cons a t ih =>
    rw [writeAll_cons]
    by_cases hmt : i ∈ t
    · exact ih _ hmt (by rw [List.length_set]; exact hi)
    · have hia : i = a := by
        rcases List.mem_cons.mp hm with h | h
        · exact h
        · exact absurd h hmt
      subst hia
      rw [writeAll_not_mem f t _ i hmt, List.getElem?_set_self hi]

/-- The fold of units over a schedule, componentwise: each result sequence is
`writeAll` of its projection of the step function, and the barrier counter
goes down by one per processed unit. -/
theorem dispatch_foldl_eq (step : Nat → DoResult) (schedule : List Nat) (st : DispatchState) :
    schedule.foldl (runUnit step) st =
      ⟨⟨writeAll (fun s => (step s).res) schedule st.results.resps,
        writeAll (fun s => (step s).readBody) schedule st.results.readBodies,
        writeAll (fun s => (step s).err) schedule st.results.errs⟩,
        st.wgCount - schedule.length⟩ := by
  induction schedule generalizing st with
  | nil => rfl
  | cons a t ih =>
    rw [List.foldl_cons, ih, writeAll_cons, writeAll_cons, writeAll_cons]
    simp only [runUnit, writeSlot, List.length_cons]
    exact congrArg (DispatchState.mk _) (by omega)

/-- `DoBatchSched` spelled out via `writeAll` over the zero-value initial
sequences, with the final barrier count. -/
theorem DoBatchSched_eq (step : Nat → DoResult) (z : Nat) (schedule : List Nat) :
    DoBatchSched step z schedule =
      ⟨⟨writeAll (fun s => (step s).res) schedule (List.replicate z none),
        writeAll (fun s => (step s).readBody) schedule (List.replicate z ""),
        writeAll (fun s => (step s).err) schedule (List.replicate z none)⟩,
        z - schedule.length⟩ :=
  dispatch_foldl_eq step schedule (initBatch z)

/-- Slot `i` of all three sequences holds the triple of unit `i` as soon as
unit `i` appears in the schedule. -/
theorem DoBatchSched_slot (step : Nat → DoResult) (z : Nat) (schedule : List Nat) (i : Nat)
    (hm : i ∈ schedule) (hi : i < z) :
    (DoBatchSched step z schedule).results.resps[i]? = some (step i).res
    ∧ (DoBatchSched step z schedule).results.readBodies[i]? = some (step i).readBody
    ∧ (DoBatchSched step z schedule).results.errs[i]? = some (step i).err := by
  rw [DoBatchSched_eq]
  exact ⟨writeAll_mem _ _ _ _ hm (by simpa using hi),
    writeAll_mem _ _ _ _ hm (by simpa using hi),
    writeAll_mem _ _ _ _ hm (by simpa using hi)⟩

/-- Writing under two schedules that are permutations of one another yields
the same sequence: writes of distinct units land in disjoint slots and a
repeated index always writes the same value. -/
theorem writeAll_perm (f : Nat → α) (s₁ s₂ : List Nat) (init : List α)
    (hperm : s₁.Perm s₂) (hall : ∀ i ∈ s₁, i < init.length) :
    writeAll f s₁ init = writeAll f s₂ init := by
  apply List.ext_getElem?
  intro n
  by_cases hm : n ∈ s₁
  · rw [writeAll_mem f s₁ init n hm (hall n hm),
      writeAll_mem f s₂ init n (hperm.mem_iff.mp hm) (hall n hm)]
  · rw [writeAll_not_mem f s₁ init n hm,
      writeAll_not_mem f s₂ init n (fun h => hm (hperm.mem_iff.mpr h))]

/-- Schedule independence: any complete run of the dispatcher (a schedule
that processes each of the `z` units exactly once, in any completion order)
produces the same final state as the canonical run. -/
theorem DoBatchSched_perm (step : Nat → DoResult) (z : Nat) (schedule : List Nat)
    (hperm : schedule.Perm (List.range z)) :
    DoBatchSched step z schedule = DoBatchSched step z (List.range z) := by
  have hall : ∀ i ∈ schedule, i < z := by
    intro i hi
    exact List.mem_range.mp (hperm.mem_iff.mp hi)
  rw [DoBatchSched_eq, DoBatchSched_eq, hperm.length_eq, List.length_range]
  exact congrArg₂ DispatchState.mk
    (by
      rw [writeAll_perm _ _ _ _ hperm (fun i hi => by simpa using hall i hi),
        writeAll_perm _ _ _ _ hperm (fun i hi => by simpa using hall i hi),
        writeAll_perm _ _ _ _ hperm (fun i hi => by simpa using hall i hi)])
    rfl

/-- C1: Ordering — for every batch of N ≥ 0 requests and every completion
order of the concurrent units (any schedule that is a permutation of
`range N`), the run yields exactly the `DoBatch` result sequences, and slot
`i` of the responses, bodies and errors sequences is the triple produced by
transporting input request `i` (`batchStep … i`, the `Do` call on request `i`
and body `i`): each unit writes at its own original zero-based index, never
at an append or arbitrary position. -/
theorem DoBatch_ordering {ε : Type} (client : HttpClient) (fmtReq : Request → String)
    (fmtRes : Response → String) (elapsed : Nat → String) (originID calleeID : String)
    (reqs : List Request) (reqBodies : List String) (logger : Option (Call → ε))
    (schedule : List Nat) (hsched : schedule.Perm (List.range reqs.length))
    (hlen : reqBodies.length = reqs.length) :
    (DoBatchSched (batchStep client fmtReq fmtRes elapsed originID calleeID reqs reqBodies logger)
        reqs.length schedule).results
      = DoBatch client fmtReq fmtRes elapsed originID calleeID reqs reqBodies logger
    ∧ ∀ i, i < reqs.length →
        (DoBatch client fmtReq fmtRes elapsed originID calleeID reqs reqBodies logger).resps[i]?
            = some (batchStep client fmtReq fmtRes elapsed originID calleeID
                reqs reqBodies logger i).res
        ∧ (DoBatch client fmtReq fmtRes elapsed originID calleeID reqs reqBodies
              logger).readBodies[i]?
            = some (batchStep client fmtReq fmtRes elapsed originID calleeID
                reqs reqBodies logger i).readBody
        ∧ (DoBatch client fmtReq fmtRes elapsed originID calleeID reqs reqBodies logger).errs[i]?
            = some (batchStep client fmtReq fmtRes elapsed originID calleeID
                reqs reqBodies logger i).err := by
  constructor
  · exact congrArg DispatchState.results (DoBatchSched_perm _ _ _ hsched)
  · intro i hi
    exact DoBatchSched_slot _ reqs.length (List.range reqs.length) i
      (List.mem_range.mpr hi) hi

/-- Witness for C1 at a concrete two-request batch run under the reversed
completion order. -/
theorem DoBatch_ordering_witness :
    (DoBatchSched (batchStep fxClient fxFmtReq fxFmtRes fxElapsed "o" "c"
        [okReq, failReq] ["", ""] fxLogger) 2 [1, 0]).results
      = DoBatch fxClient fxFmtReq fxFmtRes fxElapsed "o" "c" [okReq, failReq] ["", ""] fxLogger
    ∧ (DoBatch fxClient fxFmtReq fxFmtRes fxElapsed "o" "c"
          [okReq, failReq] ["", ""] fxLogger).errs[1]?
        = some (batchStep fxClient fxFmtReq fxFmtRes fxElapsed "o" "c"
            [okReq, failReq] ["", ""] fxLogger 1).err := by
  have h := DoBatch_ordering fxClient fxFmtReq fxFmtRes fxElapsed "o" "c"
    [okReq, failReq] ["", ""] fxLogger [1, 0] (by decide) rfl
  exact ⟨h.1, (h.2 1 (by decide)).2.2⟩

/-- C2: Length/slot invariant — the three result sequences of `DoBatch` all
have the length of the input request sequence, slot `i` corresponds to input
request `i` (its content is the triple of unit `i`), and the empty input
yields three empty sequences. -/
theorem DoBatch_lengths {ε : Type} (client : HttpClient) (fmtReq : Request → String)
    (fmtRes : Response → String) (elapsed : Nat → String) (originID calleeID : String)
    (reqs : List Request) (reqBodies : List String) (logger : Option (Call → ε))
    (hlen : reqBodies.length = reqs.length) :
    ((DoBatch client fmtReq fmtRes elapsed originID calleeID reqs reqBodies
        logger).resps.length = reqs.length
      ∧ (DoBatch client fmtReq fmtRes elapsed originID calleeID reqs reqBodies
          logger).readBodies.length = reqs.length
      ∧ (DoBatch client fmtReq fmtRes elapsed originID calleeID reqs reqBodies
          logger).errs.length = reqs.length)
    ∧ (∀ i, i < reqs.length →
        (DoBatch client fmtReq fmtRes elapsed originID calleeID reqs reqBodies logger).resps[i]?
          = some (batchStep client fmtReq fmtRes elapsed originID calleeID
              reqs reqBodies logger i).res)
    ∧ (reqs = [] →
        DoBatch client fmtReq fmtRes elapsed originID calleeID reqs reqBodies logger
          = ⟨[], [], []⟩) := by
  refine ⟨?_, ?_, ?_⟩
  · rw [DoBatch, DoBatchSched_eq]
    refine ⟨?_, ?_, ?_⟩ <;> simp [writeAll_length]
  · intro i hi
    exact (DoBatchSched_slot _ reqs.length (List.range reqs.length) i
      (List.mem_range.mpr hi) hi).1
  · intro h
    subst h
    rfl

/-- Witness for C2 at a concrete two-request batch and at the empty batch. -/
theorem DoBatch_lengths_witness :
    (DoBatch fxClient fxFmtReq fxFmtRes fxElapsed "o" "c"
        [okReq, failReq] ["", ""] fxLogger).resps.length = [okReq, failReq].length
    ∧ DoBatch fxClient fxFmtReq fxFmtRes fxElapsed "o" "c" [] [] fxLogger = ⟨[], [], []⟩ :=
  ⟨(DoBatch_lengths fxClient fxFmtReq fxFmtRes fxElapsed "o" "c"
      [okReq, failReq] ["", ""] fxLogger rfl).1.1,
   (DoBatch_lengths fxClient fxFmtReq fxFmtRes fxElapsed "o" "c" [] [] fxLogger rfl).2.2 rfl⟩

/-- C3: Isolation — in a batch of N ≥ 2 requests where exactly request `j`
fails at transport and every other request succeeds with a cleanly drained
body, only slot `j` of the errors sequence holds a non-nil error; every other
slot holds a nil error together with the success result of its own request. -/
theorem DoBatch_isolation {ε : Type} (client : HttpClient) (fmtReq : Request → String)
    (fmtRes : Response → String) (elapsed : Nat → String) (originID calleeID : String)
    (reqs : List Request) (reqBodies : List String) (logger : Option (Call → ε))
    (j : Nat) (e : String) (resOf : Nat → Response)
    (hlen : reqBodies.length = reqs.length) (hz : 2 ≤ reqs.length) (hj : j < reqs.length)
    (hfail : client (reqs.getD j ⟨"", "", [], none⟩) = Except.error e)
    (hsucc : ∀ i, i < reqs.length → i ≠ j →
      client (reqs.getD i ⟨"", "", [], none⟩) = Except.ok (resOf i)
      ∧ (resOf i).bodyReadErr = none) :
    (DoBatch client fmtReq fmtRes elapsed originID calleeID reqs reqBodies logger).errs[j]?
      = some (some e)
    ∧ ∀ i, i < reqs.length → i ≠ j →
        (DoBatch client fmtReq fmtRes elapsed originID calleeID reqs reqBodies logger).errs[i]?
          = some none
        ∧ (DoBatch client fmtReq fmtRes elapsed originID calleeID reqs reqBodies logger).resps[i]?
          = some (some (resOf i))
        ∧ (DoBatch client fmtReq fmtRes elapsed originID calleeID reqs reqBodies
            logger).readBodies[i]?
          = some ((resOf i).bodyBytes) := by
  constructor
  · have h := (DoBatchSched_slot (batchStep client fmtReq fmtRes elapsed originID calleeID
      reqs reqBodies logger) reqs.length (List.range reqs.length) j
      (List.mem_range.mpr hj) hj).2.2
    have hstep : batchStep client fmtReq fmtRes elapsed originID calleeID
        reqs reqBodies logger j = ⟨none, "", some e⟩ := by
      unfold batchStep Do
      rw [hfail]
    rw [DoBatch, h, hstep]
  · intro i hi hne
    have h := DoBatchSched_slot (batchStep client fmtReq fmtRes elapsed originID calleeID
      reqs reqBodies logger) reqs.length (List.range reqs.length) i
      (List.mem_range.mpr hi) hi
    have hstep : batchStep client fmtReq fmtRes elapsed originID calleeID
        reqs reqBodies logger i
        = ⟨some (resOf i), (resOf i).bodyBytes, (resOf i).bodyReadErr⟩ := by
      unfold batchStep Do
      rw [(hsucc i hi hne).1]
    refine ⟨?_, ?_, ?_⟩
    · rw [DoBatch, h.2.2, hstep, (hsucc i hi hne).2]
    · rw [DoBatch, h.1, hstep]
    · rw [DoBatch, h.2.1, hstep]

/-- Witness for C3: a concrete batch of two requests in which exactly the
first fails at transport. -/
theorem DoBatch_isolation_witness :
    (DoBatch fxClient fxFmtReq fxFmtRes fxElapsed "o" "c"
        [failReq, okReq] ["", ""] fxLogger).errs[0]? = some (some "connection refused")
    ∧ (DoBatch fxClient fxFmtReq fxFmtRes fxElapsed "o" "c"
        [failReq, okReq] ["", ""] fxLogger).errs[1]? = some none := by
  have h := DoBatch_isolation fxClient fxFmtReq fxFmtRes fxElapsed "o" "c"
    [failReq, okReq] ["", ""] fxLogger 0 "connection refused" (fun _ => okResponse)
    rfl (by decide) (by decide) rfl
    (by
      intro i hi hne
      have hi2 : i < 2 := by simpa using hi
      have hi1 : i = 1 := by omega
      subst hi1
      exact ⟨rfl, rfl⟩)
  exact ⟨h.1, (h.2 1 (by decide) (by decide)).1⟩

/-- C4: Completion — a complete run of the dispatcher (each of the N units
finishing exactly once, in any order) drives the waitgroup barrier to zero —
only then does `DoBatch` return — with every slot written with the triple of
its own unit; the barrier counts down exactly once per finished unit,
unconditionally on the unit result, so also on transport error. -/
theorem DoBatch_completion {ε : Type} (client : HttpClient) (fmtReq : Request → String)
    (fmtRes : Response → String) (elapsed : Nat → String) (originID calleeID : String)
    (reqs : List Request) (reqBodies : List String) (logger : Option (Call → ε))
    (schedule : List Nat) (hsched : schedule.Perm (List.range reqs.length))
    (hlen : reqBodies.length = reqs.length) :
    (DoBatchSched (batchStep client fmtReq fmtRes elapsed originID calleeID reqs reqBodies logger)
        reqs.length schedule).wgCount = 0
    ∧ (∀ (st : DispatchState) (s : Nat),
        (runUnit (batchStep client fmtReq fmtRes elapsed originID calleeID reqs reqBodies logger)
            st s).wgCount = st.wgCount - 1)
    ∧ ∀ i, i < reqs.length →
        (DoBatchSched (batchStep client fmtReq fmtRes elapsed originID calleeID
            reqs reqBodies logger) reqs.length schedule).results.errs[i]?
          = some (batchStep client fmtReq fmtRes elapsed originID calleeID
              reqs reqBodies logger i).err := by
  refine ⟨?_, fun st s => rfl, ?_⟩
  · rw [DoBatchSched_eq]
    have := hsched.length_eq
    simp only [List.length_range] at this
    simp [this]
  · intro i hi
    exact (DoBatchSched_slot _ reqs.length schedule i
      (hsched.mem_iff.mpr (List.mem_range.mpr hi)) hi).2.2

/-- Witness for C4 at a concrete two-request batch run under the reversed
completion order. -/
theorem DoBatch_completion_witness :
    (DoBatchSched (batchStep fxClient fxFmtReq fxFmtRes fxElapsed "o" "c"
        [okReq, failReq] ["", ""] fxLogger) 2 [1, 0]).wgCount = 0
    ∧ (DoBatchSched (batchStep fxClient fxFmtReq fxFmtRes fxElapsed "o" "c"
        [okReq, failReq] ["", ""] fxLogger) 2 [1, 0]).results.errs[0]?
      = some (batchStep fxClient fxFmtReq fxFmtRes fxElapsed "o" "c"
          [okReq, failReq] ["", ""] fxLogger 0).err := by
  have h := DoBatch_completion fxClient fxFmtReq fxFmtRes fxElapsed "o" "c"
    [okReq, failReq] ["", ""] fxLogger [1, 0] (by decide) rfl
  exact ⟨h.1, h.2.2 0 (by decide)⟩

/-- C5: Transport failure — when the client fails for a request, `Do` returns
a nil response, an empty body string and the non-nil transport error, and
with a logger supplied it emits exactly one `Call` record whose `Err` field
is the rendering of the error (non-empty whenever the error message is) and
whose `Res` field is `"<nil>"`, the rendering of the absent response. -/
theorem Do_transport_failure {ε : Type} (client : HttpClient) (fmtReq : Request → String)
    (fmtRes : Response → String) (timeTaken originID calleeID : String)
    (req : Request) (reqBody : String) (f : Call → ε) (e : String)
    (hfail : client req = Except.error e) :
    (Do client fmtReq fmtRes timeTaken originID calleeID req reqBody (some f)).1
      = ⟨none, "", some e⟩
    ∧ (Do client fmtReq fmtRes timeTaken originID calleeID req reqBody (some f)).2
      = [⟨originID, calleeID, timeTaken, fmtReq req, reqBody, "<nil>", "", e⟩]
    ∧ (e ≠ "" →
        ∀ c ∈ (Do client fmtReq fmtRes timeTaken originID calleeID req reqBody (some f)).2,
          c.Err ≠ "") := by
  have h2 : (Do client fmtReq fmtRes timeTaken originID calleeID req reqBody (some f)).2
      = [⟨originID, calleeID, timeTaken, fmtReq req, reqBody, "<nil>", "", e⟩] := by
    unfold Do
    rw [hfail]
    rfl
  refine ⟨by unfold Do; rw [hfail], h2, ?_⟩
  intro he c hc
  rw [h2] at hc
  simp only [List.mem_singleton] at hc
  subst hc
  exact he

/-- Witness for C5 at a concrete refused connection. -/
theorem Do_transport_failure_witness :
    (Do fxClient fxFmtReq fxFmtRes "1.00" "o" "c" failReq ""
        (some (fun _ => (0 : Nat)))).1 = ⟨none, "", some "connection refused"⟩
    ∧ (Do fxClient fxFmtReq fxFmtRes "1.00" "o" "c" failReq ""
        (some (fun _ => (0 : Nat)))).2
      = [⟨"o", "c", "1.00", fxFmtReq failReq, "", "<nil>", "", "connection refused"⟩] := by
  have h := Do_transport_failure fxClient fxFmtReq fxFmtRes "1.00" "o" "c" failReq ""
    (fun _ => (0 : Nat)) "connection refused" rfl
  exact ⟨h.1, h.2.1⟩

/-- C6: Logging cardinality — whatever the outcome of the transport, `Do`
invokes the supplied logger at most once (its emitted record trace has length
at most one), and with a nil logger it emits nothing while still producing
the result triple normally (the same triple as with any logger). -/
theorem Do_logging_cardinality {ε : Type} (client : HttpClient) (fmtReq : Request → String)
    (fmtRes : Response → String) (timeTaken originID calleeID : String)
    (req : Request) (reqBody : String) (logger : Option (Call → ε)) :
    (Do client fmtReq fmtRes timeTaken originID calleeID req reqBody logger).2.length ≤ 1
    ∧ (Do client fmtReq fmtRes timeTaken originID calleeID req reqBody
        (none : Option (Call → ε))).2 = []
    ∧ (Do client fmtReq fmtRes timeTaken originID calleeID req reqBody
        (none : Option (Call → ε))).1
      = (Do client fmtReq fmtRes timeTaken originID calleeID req reqBody logger).1 := by
  unfold Do
  cases client req <;> cases logger <;> simp

/-- C7 counterexample: on a fully successful call (nil returned error) the
emitted `Call` record has `Err = "<nil>"` — the Go rendering of a nil error —
which is not the empty string the claim requires. -/
theorem Do_call_err_success_cex :
    (Do fxClient fxFmtReq fxFmtRes "1.00" "o" "c" okReq "" fxLogger).1.err = none
    ∧ (Do fxClient fxFmtReq fxFmtRes "1.00" "o" "c" okReq "" fxLogger).2.map Call.Err
      = ["<nil>"]
    ∧ "<nil>" ≠ "" := by
  exact ⟨rfl, rfl, by decide⟩

/-- C7 amended: every `Call` record emitted by `Do` carries the Go rendering
of the returned error (`fmtValue id`), and on a fully successful call this
rendering is the literal string `"<nil>"` — the rendering of a nil error —
not the empty string. -/
theorem Do_call_err_field {ε : Type} (client : HttpClient) (fmtReq : Request → String)
    (fmtRes : Response → String) (timeTaken originID calleeID : String)
    (req : Request) (reqBody : String) (logger : Option (Call → ε)) (f : Call → ε) :
    (∀ c ∈ (Do client fmtReq fmtRes timeTaken originID calleeID req reqBody logger).2,
        c.Err = fmtValue id
          (Do client fmtReq fmtRes timeTaken originID calleeID req reqBody logger).1.err)
    ∧ (∀ res, client req = Except.ok res → res.bodyReadErr = none →
        (Do client fmtReq fmtRes timeTaken originID calleeID req reqBody
            (some f)).2.map Call.Err = ["<nil>"]) := by
  constructor
  · intro c hc
    unfold Do at hc ⊢
    rcases h : client req with e | res <;> rw [h] at hc <;> cases logger <;>
      simp_all
  · intro res hres hnone
    unfold Do
    rw [hres]
    simp [hnone, fmtValue]

/-- Witness for C7 amended at a concrete fully successful call. -/
theorem Do_call_err_field_witness :
    (Do fxClient fxFmtReq fxFmtRes "1.00" "o" "c" okReq ""
        (some (fun _ => (0 : Nat)))).2.map Call.Err = ["<nil>"] :=
  (Do_call_err_field fxClient fxFmtReq fxFmtRes "1.00" "o" "c" okReq ""
    (some (fun _ => (0 : Nat))) (fun _ => (0 : Nat))).2 okResponse rfl rfl

/-- C10: Logger noninterference — the result triple of `Do` is the same
whatever logger argument is supplied (nil or any implementation with any
result type and any results): the logger never influences the returned
values. -/
theorem Do_logger_noninterference {ε₁ ε₂ : Type} (client : HttpClient)
    (fmtReq : Request → String) (fmtRes : Response → String)
    (timeTaken originID calleeID : String) (req : Request) (reqBody : String)
    (logger₁ : Option (Call → ε₁)) (logger₂ : Option (Call → ε₂)) :
    (Do client fmtReq fmtRes timeTaken originID calleeID req reqBody logger₁).1
      = (Do client fmtReq fmtRes timeTaken originID calleeID req reqBody logger₂).1 := by
  unfold Do
  cases client req <;> rfl

/-- C8: BuildBody error taxonomy — lookup of an absent name fails with the
not-found error, a recorded compile failure with the initialisation error, a
rendering failure with the execution error; success returns the rendered
text, compacted when the content type is `application/json`, and a compaction
failure is surfaced as an error carrying the raw rendered text. -/
theorem BuildBody_taxonomy {δ : Type} (cache : TemplateCache δ)
    (jsonCompact : String → Except String String) (name : String) (data : δ)
    (contentType : String) :
    (∀ e, (cache name).err = some e →
      BuildBody cache jsonCompact name data contentType
        = Except.error ("error initialising template " ++ name ++ ", " ++ e))
    ∧ ((cache name).err = none → (cache name).t = none →
      BuildBody cache jsonCompact name data contentType
        = Except.error ("template " ++ name ++ " not found"))
    ∧ (∀ tf e, (cache name).err = none → (cache name).t = some tf →
      tf data = Except.error e →
      BuildBody cache jsonCompact name data contentType
        = Except.error ("error executing template " ++ name ++ ", " ++ e))
    ∧ (∀ tf s, (cache name).err = none → (cache name).t = some tf →
      tf data = Except.ok s → contentType ≠ "application/json" →
      BuildBody cache jsonCompact name data contentType = Except.ok s)
    ∧ (∀ tf s c, (cache name).err = none → (cache name).t = some tf →
      tf data = Except.ok s → jsonCompact s = Except.ok c →
      BuildBody cache jsonCompact name data "application/json" = Except.ok c)
    ∧ (∀ tf s e, (cache name).err = none → (cache name).t = some tf →
      tf data = Except.ok s → jsonCompact s = Except.error e →
      BuildBody cache jsonCompact name data "application/json"
        = Except.error ("error in json request body generated from template "
            ++ name ++ ", " ++ s ++ ", " ++ e)) := by
  refine ⟨?_, ?_, ?_, ?_, ?_, ?_⟩
  · intro e he
    simp [BuildBody, he]
  · intro he ht
    simp [BuildBody, he, ht]
  · intro tf e he ht hex
    simp [BuildBody, he, ht, hex]
  · intro tf s he ht hok hct
    simp [BuildBody, he, ht, hok, hct]
  · intro tf s c he ht hok hcomp
    simp [BuildBody, he, ht, hok, hcomp]
  · intro tf s e he ht hok hcomp
    simp [BuildBody, he, ht, hok, hcomp]

/-- Witness for C8 exercising four branches of the taxonomy on the fixture
cache. -/
theorem BuildBody_taxonomy_witness :
    BuildBody fxCache fxCompact "Greet" (3 : Nat) "text/plain" = Except.ok "Hello 3"
    ∧ BuildBody fxCache fxCompact "Missing" (0 : Nat) "text/plain"
      = Except.error ("template " ++ "Missing" ++ " not found")
    ∧ BuildBody fxCache fxCompact "Bad" (0 : Nat) "text/plain"
      = Except.error ("error initialising template " ++ "Bad" ++ ", " ++ "unexpected EOF")
    ∧ BuildBody fxCache fxCompact "Json" (0 : Nat) "application/json" = Except.ok "[1,2]" := by
  refine ⟨?_, ?_, ?_, ?_⟩
  · exact (BuildBody_taxonomy fxCache fxCompact "Greet" 3 "text/plain").2.2.2.1
      (fun n => Except.ok ("Hello " ++ toString n)) "Hello 3" rfl rfl rfl (by decide)
  · exact (BuildBody_taxonomy fxCache fxCompact "Missing" 0 "text/plain").2.1 rfl rfl
  · exact (BuildBody_taxonomy fxCache fxCompact "Bad" 0 "text/plain").1 "unexpected EOF" rfl
  · exact (BuildBody_taxonomy fxCache fxCompact "Json" 0 "application/json").2.2.2.2.1
      (fun _ => Except.ok " [1, 2] ") " [1, 2] " "[1,2]" rfl rfl rfl rfl

/-- Reading the key just set yields the value just set. -/
theorem getHeader_set_same (hs : List (String × String)) (k v : String) :
    getHeader (setHeader hs k v) k = v := by
  unfold getHeader setHeader
  rw [List.find?_cons_of_pos _ (by simp)]

/-- Filtering with a predicate that every match of the search predicate
passes does not change the result of the search. -/
theorem find?_filter_stable (p q : α → Bool) (l : List α)
    (h : ∀ x, p x = true → q x = true) : (l.filter q).find? p = l.find? p := by
  induction l with
  | nil => rfl
  | cons a t ih =>
    by_cases hq : q a = true
    · rw [List.filter_cons_of_pos hq]
      cases hp : p a
      · rw [List.find?_cons_of_neg _ (by simp [hp]), List.find?_cons_of_neg _ (by simp [hp]),
          ih]
      · rw [List.find?_cons_of_pos _ hp, List.find?_cons_of_pos _ hp]
    · have hp : p a = false := by
        cases hpa : p a
        · rfl
        · exact absurd (h a hpa) hq
      rw [List.filter_cons_of_neg (by simp [hq]), ih, List.find?_cons_of_neg _ (by simp [hp])]

/-- Reading any other key is unaffected by a set. -/
theorem getHeader_set_other (hs : List (String × String)) (k v k₂ : String)
    (hne : k₂ ≠ k) : getHeader (setHeader hs k v) k₂ = getHeader hs k₂ := by
  unfold getHeader setHeader
  rw [List.find?_cons_of_neg _ (by simpa using Ne.symm hne),
    find?_filter_stable _ _ _ (by
      intro kv hkv
      simp only [decide_eq_true_eq] at hkv
      simpa [hkv] using hne)]

/-- C9: BuildRequest — construction fails exactly when the `http.NewRequest`
collaborator rejects the method/path pair (wrapping that error), and on
success the returned request is the collaborator result with only its
`User-Agent` and `Content-Type` headers set from the given values: method,
address, body and every other header are unchanged, and no other validation
takes place. -/
theorem BuildRequest_headers (newRequest : NewRequestFn)
    (userAgent contentType method reqPath : String) (reqBody : Option String) :
    ((∃ e₂, BuildRequest newRequest userAgent contentType method reqPath reqBody
        = Except.error e₂)
      ↔ (∃ e, newRequest method reqPath reqBody = Except.error e))
    ∧ (∀ e, newRequest method reqPath reqBody = Except.error e →
        BuildRequest newRequest userAgent contentType method reqPath reqBody
          = Except.error ("error building request " ++ e))
    ∧ (∀ req, newRequest method reqPath reqBody = Except.ok req →
        ∃ req₂, BuildRequest newRequest userAgent contentType method reqPath reqBody
            = Except.ok req₂
          ∧ getHeader req₂.headers "User-Agent" = userAgent
          ∧ getHeader req₂.headers "Content-Type" = contentType
          ∧ req₂.method = req.method ∧ req₂.url = req.url ∧ req₂.body = req.body
          ∧ ∀ k, k ≠ "User-Agent" → k ≠ "Content-Type" →
              getHeader req₂.headers k = getHeader req.headers k) := by
  refine ⟨⟨?_, ?_⟩, ?_, ?_⟩
  · rintro ⟨e₂, he₂⟩
    rcases h : newRequest method reqPath reqBody with e | req
    · exact ⟨e, rfl⟩
    · simp only [BuildRequest, h] at he₂
      cases he₂
  · rintro ⟨e, he⟩
    exact ⟨"error building request " ++ e, by simp [BuildRequest, he]⟩
  · intro e he
    simp [BuildRequest, he]
  · intro req hreq
    refine ⟨⟨req.method, req.url,
      setHeader (setHeader req.headers "User-Agent" userAgent) "Content-Type" contentType,
      req.body⟩, by simp [BuildRequest, hreq], ?_,
      getHeader_set_same _ _ _, rfl, rfl, rfl, ?_⟩
    · rw [getHeader_set_other _ _ _ _ (by decide), getHeader_set_same]
    · intro k hkua hkct
      rw [getHeader_set_other _ _ _ _ hkct, getHeader_set_other _ _ _ _ hkua]

/-- Witness for C9: the fixture collaborator rejecting a malformed address
and accepting a well-formed one. -/
theorem BuildRequest_headers_witness :
    BuildRequest fxNewRequest "justin 1.1.0" "application/json" "GET" "://bad" none
      = Except.error ("error building request " ++ "parse ://bad: missing protocol scheme")
    ∧ ∃ req₂, BuildRequest fxNewRequest "justin 1.1.0" "application/json" "GET" "http://ok" none
        = Except.ok req₂
      ∧ getHeader req₂.headers "User-Agent" = "justin 1.1.0"
      ∧ getHeader req₂.headers "Content-Type" = "application/json" := by
  constructor
  · exact (BuildRequest_headers fxNewRequest "justin 1.1.0" "application/json"
      "GET" "://bad" none).2.1 "parse ://bad: missing protocol scheme" rfl
  · rcases (BuildRequest_headers fxNewRequest "justin 1.1.0" "application/json"
        "GET" "http://ok" none).2.2 ⟨"GET", "http://ok", [("Accept", "anything")], none⟩ rfl
      with ⟨req₂, hb, hua, hct, _⟩
    exact ⟨req₂, hb, hua, hct⟩

end Justin
